import Mathlib

/-!
Verification of the event-to-document pipeline of `callback_plugins/elk_logger.py`
(an Ansible callback plugin forwarding run events to Elasticsearch).

Shallow embedding notes:
* Python JSON-like values become the inductive `Value`; Python `dict`s of
  string keys become association lists `List (String × Value)` whose lookup
  (`lookupKey`) models `key in d` / `d[key]` / `d.get(key, default)`.
* Python strings are sequences of Unicode code points; `s[:n]` is embedded as
  `strTake s n`, the first `n` code points, and `len(s)` as `String.length`
  (the code-point count).
* The network call in `_send_to_elasticsearch` is embedded by passing the
  outcome of `requests.post` (a status code, or a raised exception) as an
  explicit argument; Python exception propagation becomes `Except`.
-/

/-- A Python JSON-like value as stored in Ansible result dictionaries. -/
inductive Value where
  | null
  | bool (b : Bool)
  | int (n : Int)
  | str (s : String)
  | list (xs : List Value)
  | dict (kvs : List (String × Value))

/-- A raw Ansible task result (`result._result`): a Python dict with string keys. -/
abbrev RawResult := List (String × Value)

/-- Lookup of a key in a Python dict (modelled as the first matching entry).
Models both `key in d` (`isSome`) and `d[key]`. -/
def lookupKey : List (String × Value) → String → Option Value
  | [], _ => none
  | (k, v) :: rest, key => if k = key then some v else lookupKey rest key

/-- Python `d.get(key, default)`. -/
def getDefault (r : List (String × Value)) (key : String) (dflt : Value) : Value :=
  match lookupKey r key with
  | some v => v
  | none => dflt

/-- Python string slice `s[:n]`: the first `n` code points of `s`. -/
def strTake (s : String) (n : Nat) : String := String.mk (s.data.take n)

/-- The truncation marker appended by `_clean_result` (source line 245/247). -/
def truncation_marker : String := "... (truncated)"

/-- The allow-list of `_clean_result` (source line 238). -/
def safe_keys : List String := ["stdout", "stderr", "msg", "changed", "rc", "stdout_lines"]

/-- The per-value transformation of `_clean_result` (source lines 244-249):
a string longer than 5000 code points keeps its first 5000 plus the marker,
a list longer than 50 elements keeps its first 50 plus one marker element,
everything else is copied verbatim. -/
def truncateValue : Value → Value
  | .str s => if 5000 < s.length then .str (strTake s 5000 ++ truncation_marker) else .str s
  | .list xs => if 50 < xs.length then .list (xs.take 50 ++ [.str truncation_marker]) else .list xs
  | v => v

/-- The loop of `_clean_result` (source lines 240-249) over a given key list:
for each key present in `result`, insert the (possibly truncated) value into
the output dict, in iteration order. -/
def cleanKeys (result : RawResult) : List String → RawResult
  | [] => []
  | k :: ks =>
    match lookupKey result k with
    | some v => (k, truncateValue v) :: cleanKeys result ks
    | none => cleanKeys result ks

/-- `_clean_result` (source lines 235-251). -/
def _clean_result (result : RawResult) : RawResult := cleanKeys result safe_keys

-- Basic lemmas about the sanitizer.

theorem lookupKey_cleanKeys_of_not_mem (r : RawResult) (key : String) :
    ∀ ks : List String, key ∉ ks → lookupKey (cleanKeys r ks) key = none := by
  intro ks
  induction ks with
  | nil => intro _; rfl
  | cons k ks ih =>
    intro hnot
    have hne : k ≠ key := fun h => hnot (h ▸ List.mem_cons_self k ks)
    have hks : key ∉ ks := fun h => hnot (List.mem_cons_of_mem _ h)
    unfold cleanKeys
    cases hv : lookupKey r k with
    | some v => simpa [lookupKey, hne] using ih hks
    | none => exact ih hks

theorem lookupKey_cleanKeys (r : RawResult) (key : String) :
    ∀ ks : List String, ks.Nodup → key ∈ ks →
      lookupKey (cleanKeys r ks) key = (lookupKey r key).map truncateValue := by
  intro ks
  induction ks with
  | nil => intro _ h; exact absurd h (List.not_mem_nil key)
  | cons k ks ih =>
    intro hnd hmem
    have hnd' : ks.Nodup := (List.nodup_cons.mp hnd).2
    by_cases hk : k = key
    · subst hk
      have hknotin : k ∉ ks := (List.nodup_cons.mp hnd).1
      unfold cleanKeys
      cases hv : lookupKey r k with
      | some v => simp [lookupKey, hv]
      | none => simp [hv, lookupKey_cleanKeys_of_not_mem r k ks hknotin]
    · have hmem' : key ∈ ks := by
        cases List.mem_cons.mp hmem with
        | inl h => exact absurd h.symm hk
        | inr h => exact h
      unfold cleanKeys
      cases hv : lookupKey r k with
      | some v => simpa [lookupKey, hk] using ih hnd' hmem'
      | none => exact ih hnd' hmem'

theorem lookupKey_cleanKeys_isSome (r : RawResult) (key : String) :
    ∀ ks : List String, (lookupKey (cleanKeys r ks) key).isSome →
      key ∈ ks ∧ (lookupKey r key).isSome := by
  intro ks
  induction ks with
  | nil => intro h; simp [cleanKeys, lookupKey] at h
  | cons k ks ih =>
    intro h
    unfold cleanKeys at h
    cases hv : lookupKey r k with
    | some v =>
      rw [hv] at h
      by_cases hk : k = key
      · subst hk
        exact ⟨List.mem_cons_self k ks, by simp [hv]⟩
      · simp only [lookupKey, if_neg hk] at h
        obtain ⟨hmem, hs⟩ := ih h
        exact ⟨List.mem_cons_of_mem _ hmem, hs⟩
    | none =>
      rw [hv] at h
      obtain ⟨hmem, hs⟩ := ih h
      exact ⟨List.mem_cons_of_mem _ hmem, hs⟩

theorem safe_keys_nodup : safe_keys.Nodup := by decide

/-- C1: for every raw result and every allow-listed key present in it, the
sanitized output maps that key to: the first 5000 code points plus the marker
when the value is a string longer than 5000; the first 50 elements plus one
marker element (output length exactly 51) when the value is a list longer
than 50; the value itself otherwise. -/
theorem clean_result_per_key (r : RawResult) (key : String) (v : Value)
    (hk : key ∈ safe_keys) (hv : lookupKey r key = some v) :
    lookupKey (_clean_result r) key = some (truncateValue v)
    ∧ (∀ s, v = Value.str s → 5000 < s.length →
        truncateValue v = Value.str (strTake s 5000 ++ truncation_marker))
    ∧ (∀ xs, v = Value.list xs → 50 < xs.length →
        truncateValue v = Value.list (xs.take 50 ++ [Value.str truncation_marker])
        ∧ (xs.take 50 ++ [Value.str truncation_marker]).length = 51)
    ∧ ((∀ s, v = Value.str s → s.length ≤ 5000) →
       (∀ xs, v = Value.list xs → xs.length ≤ 50) →
        truncateValue v = v) := by
  refine ⟨?_, ?_, ?_, ?_⟩
  · unfold _clean_result
    rw [lookupKey_cleanKeys r key safe_keys safe_keys_nodup hk, hv]
    rfl
  · intro s hs hlen
    subst hs
    simp [truncateValue, hlen]
  · intro xs hxs hlen
    subst hxs
    constructor
    · simp [truncateValue, hlen]
    · simp only [List.length_append, List.length_take, List.length_cons, List.length_nil]
      omega
  · intro hstr hlist
    cases v with
    | str s => simp [truncateValue, Nat.not_lt.mpr (hstr s rfl)]
    | list xs => simp [truncateValue, Nat.not_lt.mpr (hlist xs rfl)]
    | null => rfl
    | bool b => rfl
    | int n => rfl
    | dict kvs => rfl

theorem clean_result_per_key_witness :
    lookupKey (_clean_result [("stdout", Value.str "hi")]) "stdout"
      = some (truncateValue (Value.str "hi")) :=
  (clean_result_per_key [("stdout", Value.str "hi")] "stdout" (Value.str "hi")
    (by decide) rfl).1

/-- C2: every key of the sanitized output lies in the allow-list and was
present in the input; an allow-listed key absent from the input is absent
from the output (no null-filling). -/
theorem clean_result_keys (r : RawResult) (key : String) :
    ((lookupKey (_clean_result r) key).isSome →
      key ∈ safe_keys ∧ (lookupKey r key).isSome)
    ∧ (lookupKey r key = none → lookupKey (_clean_result r) key = none) := by
  constructor
  · exact lookupKey_cleanKeys_isSome r key safe_keys
  · intro habs
    by_cases hk : key ∈ safe_keys
    · unfold _clean_result
      rw [lookupKey_cleanKeys r key safe_keys safe_keys_nodup hk, habs]
      rfl
    · exact lookupKey_cleanKeys_of_not_mem r key safe_keys hk

theorem clean_result_keys_witness :
    "msg" ∈ safe_keys ∧ (lookupKey [("msg", Value.str "y"), ("secret", Value.str "z")] "msg").isSome :=
  (clean_result_keys [("msg", Value.str "y"), ("secret", Value.str "z")] "msg").1
    (by simp [_clean_result, cleanKeys, safe_keys, lookupKey])

-- Idempotence of the sanitizer.

theorem string_length_data (s : String) : s.length = s.data.length := rfl

theorem string_length_mk (l : List Char) : (String.mk l).length = l.length := rfl

theorem truncation_marker_length : truncation_marker.length = 15 := by decide

theorem truncateValue_idem (v : Value) : truncateValue (truncateValue v) = truncateValue v := by
  cases v with
  | str s =>
    by_cases hlen : 5000 < s.length
    · have hdata : 5000 ≤ s.data.length := by
        rw [string_length_data] at hlen; omega
      have htake : (s.data.take 5000).length = 5000 := by
        rw [List.length_take]; omega
      have hlen2 : 5000 < (strTake s 5000 ++ truncation_marker).length := by
        rw [String.length_append, strTake, string_length_mk, htake, truncation_marker_length]
        omega
      have htake2 : strTake (strTake s 5000 ++ truncation_marker) 5000 = strTake s 5000 := by
        unfold strTake
        rw [String.data_append]
        congr 1
        show ((String.mk (s.data.take 5000)).data ++ truncation_marker.data).take 5000
          = s.data.take 5000
        exact List.take_left' htake
      simp only [truncateValue, if_pos hlen, if_pos hlen2, htake2]
    · simp only [truncateValue, if_neg hlen]
  | list xs =>
    by_cases hlen : 50 < xs.length
    · have htake : (xs.take 50).length = 50 := by
        rw [List.length_take]; omega
      have hlen2 : 50 < (xs.take 50 ++ [Value.str truncation_marker]).length := by
        simp [List.length_append, htake]
      have htake2 : (xs.take 50 ++ [Value.str truncation_marker]).take 50 = xs.take 50 :=
        List.take_left' htake
      simp only [truncateValue, if_pos hlen, if_pos hlen2, htake2]
    · simp only [truncateValue, if_neg hlen]
  | null => rfl
  | bool b => rfl
  | int n => rfl
  | dict kvs => rfl

theorem cleanKeys_cons_skip (k : String) (w : Value) (t : RawResult) :
    ∀ ks : List String, k ∉ ks → cleanKeys ((k, w) :: t) ks = cleanKeys t ks := by
  intro ks
  induction ks with
  | nil => intro _; rfl
  | cons k' ks ih =>
    intro hnot
    have hne : k ≠ k' := fun h => hnot (h ▸ List.mem_cons_self k' ks)
    have hks : k ∉ ks := fun h => hnot (List.mem_cons_of_mem _ h)
    unfold cleanKeys
    rw [show lookupKey ((k, w) :: t) k' = lookupKey t k' by simp [lookupKey, hne]]
    cases lookupKey t k' with
    | some v => rw [ih hks]
    | none => exact ih hks

theorem cleanKeys_cons_some (r : RawResult) (k : String) (v : Value) (ks : List String)
    (h : lookupKey r k = some v) :
    cleanKeys r (k :: ks) = (k, truncateValue v) :: cleanKeys r ks := by
  simp [cleanKeys, h]

theorem cleanKeys_cons_none (r : RawResult) (k : String) (ks : List String)
    (h : lookupKey r k = none) :
    cleanKeys r (k :: ks) = cleanKeys r ks := by
  simp [cleanKeys, h]

theorem cleanKeys_cleanKeys (r : RawResult) :
    ∀ ks : List String, ks.Nodup → cleanKeys (cleanKeys r ks) ks = cleanKeys r ks := by
  intro ks
  induction ks with
  | nil => intro _; rfl
  | cons k ks ih =>
    intro hnd
    have hknotin : k ∉ ks := (List.nodup_cons.mp hnd).1
    have hnd' : ks.Nodup := (List.nodup_cons.mp hnd).2
    cases hv : lookupKey r k with
    | some v =>
      rw [cleanKeys_cons_some r k v ks hv]
      rw [cleanKeys_cons_some ((k, truncateValue v) :: cleanKeys r ks) k (truncateValue v) ks
        (by simp [lookupKey])]
      rw [truncateValue_idem, cleanKeys_cons_skip k (truncateValue v) (cleanKeys r ks) ks hknotin,
        ih hnd']
    | none =>
      rw [cleanKeys_cons_none r k ks hv]
      rw [cleanKeys_cons_none (cleanKeys r ks) k ks
        (lookupKey_cleanKeys_of_not_mem r k ks hknotin)]
      exact ih hnd'

/-- C10: the sanitizer is idempotent: re-sanitizing an already sanitized
result (truncated fields included) returns it unchanged. -/
theorem clean_result_idempotent (r : RawResult) :
    _clean_result (_clean_result r) = _clean_result r :=
  cleanKeys_cleanKeys r safe_keys safe_keys_nodup

-- Size of a value / result, for the size-bound claim.

mutual
/-- Total size of a value: one unit per node plus the code points of strings. -/
def Value.size : Value → Nat
  | .null => 1
  | .bool _ => 1
  | .int _ => 1
  | .str s => 1 + s.length
  | .list xs => 1 + Value.sizeList xs
  | .dict kvs => 1 + Value.sizeDict kvs

def Value.sizeList : List Value → Nat
  | [] => 0
  | v :: vs => Value.size v + Value.sizeList vs

def Value.sizeDict : List (String × Value) → Nat
  | [] => 0
  | (k, v) :: kvs => k.length + Value.size v + Value.sizeDict kvs
end

/-- Total size of a raw or sanitized result dict. -/
def resultSize (r : RawResult) : Nat := Value.sizeDict r

/-- C5, counterexample: the sanitized output size is NOT bounded by any
constant: a list of at most 50 elements is copied verbatim even when its
elements are arbitrarily large strings, so the output grows without bound. -/
theorem clean_result_size_unbounded :
    ¬ ∃ bound : Nat, ∀ r : RawResult, resultSize (_clean_result r) ≤ bound := by
  rintro ⟨B, hB⟩
  have h := hB [("stdout", Value.list [Value.str (String.mk (List.replicate (B + 1) 'a'))])]
  have hclean : _clean_result
      [("stdout", Value.list [Value.str (String.mk (List.replicate (B + 1) 'a'))])]
      = [("stdout", Value.list [Value.str (String.mk (List.replicate (B + 1) 'a'))])] := rfl
  rw [hclean] at h
  simp only [resultSize, Value.sizeDict, Value.size, Value.sizeList, string_length_mk,
    List.length_replicate] at h
  omega

theorem mem_cleanKeys (r : RawResult) (kv : String × Value) :
    ∀ ks : List String, kv ∈ cleanKeys r ks →
      ∃ v, lookupKey r kv.1 = some v ∧ kv.2 = truncateValue v := by
  intro ks
  induction ks with
  | nil => intro h; exact absurd h (List.not_mem_nil kv)
  | cons k ks ih =>
    intro h
    cases hv : lookupKey r k with
    | some v =>
      rw [cleanKeys_cons_some r k v ks hv] at h
      cases List.mem_cons.mp h with
      | inl he => exact ⟨v, by rw [he]; exact hv, by rw [he]⟩
      | inr hm => exact ih hm
    | none =>
      rw [cleanKeys_cons_none r k ks hv] at h
      exact ih h

theorem length_cleanKeys (r : RawResult) :
    ∀ ks : List String, (cleanKeys r ks).length ≤ ks.length := by
  intro ks
  induction ks with
  | nil => exact Nat.le_refl 0
  | cons k ks ih =>
    cases hv : lookupKey r k with
    | some v =>
      rw [cleanKeys_cons_some r k v ks hv]
      simpa using Nat.succ_le_succ ih
    | none =>
      rw [cleanKeys_cons_none r k ks hv]
      exact Nat.le_succ_of_le ih

theorem truncateValue_str_bound (v : Value) (s : String)
    (h : truncateValue v = Value.str s) : s.length ≤ 5000 + truncation_marker.length := by
  cases v with
  | str s0 =>
    by_cases hlen : 5000 < s0.length
    · simp only [truncateValue, if_pos hlen, Value.str.injEq] at h
      subst h
      rw [String.length_append, strTake, string_length_mk, List.length_take]
      have : s0.data.length = s0.length := (string_length_data s0).symm
      omega
    · simp only [truncateValue, if_neg hlen, Value.str.injEq] at h
      subst h
      omega
  | list xs =>
    by_cases hlen : 50 < xs.length <;> simp [truncateValue, hlen] at h
  | null => simp [truncateValue] at h
  | bool b => simp [truncateValue] at h
  | int n => simp [truncateValue] at h
  | dict kvs => simp [truncateValue] at h

theorem truncateValue_list_bound (v : Value) (xs : List Value)
    (h : truncateValue v = Value.list xs) : xs.length ≤ 51 := by
  cases v with
  | list xs0 =>
    by_cases hlen : 50 < xs0.length
    · simp only [truncateValue, if_pos hlen, Value.list.injEq] at h
      subst h
      rw [List.length_append, List.length_take]
      simp only [List.length_cons, List.length_nil]
      omega
    · simp only [truncateValue, if_neg hlen, Value.list.injEq] at h
      subst h
      omega
  | str s0 =>
    by_cases hlen : 5000 < s0.length <;> simp [truncateValue, hlen] at h
  | null => simp [truncateValue] at h
  | bool b => simp [truncateValue] at h
  | int n => simp [truncateValue] at h
  | dict kvs => simp [truncateValue] at h

/-- C5, amended: each sanitized field is individually capped (strings at
5000 code points plus the marker, lists at 51 elements, at most 6 keys), but
the total size of the output is not bounded by any constant, because list
elements and values that are neither strings nor lists are copied verbatim
whatever their size. -/
theorem clean_result_fields_bounded (r : RawResult) (kv : String × Value)
    (hmem : kv ∈ _clean_result r) :
    (_clean_result r).length ≤ safe_keys.length
    ∧ (∀ s, kv.2 = Value.str s → s.length ≤ 5000 + truncation_marker.length)
    ∧ (∀ xs, kv.2 = Value.list xs → xs.length ≤ 51) := by
  obtain ⟨v, _, hval⟩ := mem_cleanKeys r kv safe_keys hmem
  refine ⟨length_cleanKeys r safe_keys, ?_, ?_⟩
  · intro s hs
    exact truncateValue_str_bound v s (by rw [← hval, hs])
  · intro xs hxs
    exact truncateValue_list_bound v xs (by rw [← hval, hxs])

theorem clean_result_fields_bounded_witness :
    (_clean_result [("rc", Value.int 0)]).length ≤ safe_keys.length :=
  (clean_result_fields_bounded [("rc", Value.int 0)] ("rc", Value.int 0)
    (by rw [show _clean_result [("rc", Value.int 0)] = [("rc", Value.int 0)] from rfl]
        exact List.mem_singleton.mpr rfl)).1

-- Sink client (`_send_to_elasticsearch`).

/-- A Python exception as relevant to `_send_to_elasticsearch`:
`requests.exceptions.RequestException` is the superclass of every
transport-level fault raised by `requests.post` (timeout, connection refused,
DNS failure, invalid URL, ...); anything else is some other exception. -/
inductive PyExc where
  | requestException (msg : String)
  | otherExc (msg : String)

/-- Observable behaviour of one `_send_to_elasticsearch` call: whether
`requests.post` was invoked, and the warning emitted (`none` when the call
returned silently, i.e. reported success). -/
structure SendTrace where
  networkAttempted : Bool
  warning : Option String

/-- `_send_to_elasticsearch` (source lines 253-275). The URL construction,
JSON serialization and the POST itself are absorbed into the explicit
argument `postOutcome`: the HTTP status code returned by `requests.post`, or
the exception it raised. The `try`/`except RequestException` of the source
catches exactly the `requestException` case; any other exception would
propagate to the caller (`Except.error`). -/
def _send_to_elasticsearch (disabled : Bool) (postOutcome : Except PyExc Nat) :
    Except PyExc SendTrace :=
  if disabled then Except.ok ⟨false, none⟩
  else
    match postOutcome with
    | Except.ok status =>
      if status ∉ ([200, 201] : List Nat) then
        Except.ok ⟨true, some ("[Elasticsearch] Failed to send log: HTTP " ++ toString status)⟩
      else
        Except.ok ⟨true, none⟩
    | Except.error (PyExc.requestException msg) =>
      Except.ok ⟨true, some ("[Elasticsearch] Error: " ++ msg)⟩
    | Except.error e => Except.error e

/-- C3: for every HTTP status code and every transport-level fault (a
`RequestException`: timeout, connection refused, DNS failure, ...), the send
operation returns normally — no exception crosses its boundary, so a failed
delivery can never abort the run. -/
theorem send_never_raises (disabled : Bool) (status : Nat) (msg : String) :
    (∃ t, _send_to_elasticsearch disabled (Except.ok status) = Except.ok t)
    ∧ (∃ t, _send_to_elasticsearch disabled (Except.error (PyExc.requestException msg))
        = Except.ok t) := by
  cases disabled with
  | true => exact ⟨⟨⟨false, none⟩, rfl⟩, ⟨⟨false, none⟩, rfl⟩⟩
  | false =>
    constructor
    · by_cases hs : status ∈ ([200, 201] : List Nat)
      · exact ⟨⟨true, none⟩, by simp [_send_to_elasticsearch, hs]⟩
      · exact ⟨⟨true, some ("[Elasticsearch] Failed to send log: HTTP " ++ toString status)⟩,
          by simp [_send_to_elasticsearch, hs]⟩
    · exact ⟨⟨true, some ("[Elasticsearch] Error: " ++ msg)⟩, rfl⟩

/-- C4: with the client enabled, a send reports success (returns silently)
exactly for HTTP status 200 or 201; every other status yields a warning
carrying the status code, and every transport fault yields a warning carrying
the underlying error message. -/
theorem send_success_iff (status : Nat) (msg : String) :
    (_send_to_elasticsearch false (Except.ok status)
        = Except.ok ⟨true, none⟩ ↔ (status = 200 ∨ status = 201))
    ∧ (¬ (status = 200 ∨ status = 201) →
      _send_to_elasticsearch false (Except.ok status)
        = Except.ok ⟨true, some ("[Elasticsearch] Failed to send log: HTTP " ++ toString status)⟩)
    ∧ _send_to_elasticsearch false (Except.error (PyExc.requestException msg))
        = Except.ok ⟨true, some ("[Elasticsearch] Error: " ++ msg)⟩ := by
  refine ⟨?_, ?_, rfl⟩
  · by_cases hor : status = 200 ∨ status = 201
    · have hs : status ∈ ([200, 201] : List Nat) := by simpa using hor
      constructor
      · intro _
        exact hor
      · intro _
        simp [_send_to_elasticsearch, hs]
    · have hs : status ∉ ([200, 201] : List Nat) := by simpa using hor
      constructor
      · intro he
        rw [show _send_to_elasticsearch false (Except.ok status)
              = Except.ok ⟨true,
                  some ("[Elasticsearch] Failed to send log: HTTP " ++ toString status)⟩
            from by simp [_send_to_elasticsearch, hs]] at he
        exact absurd he (by simp)
      · intro h
        exact absurd h hor
  · intro hnot
    have hs : status ∉ ([200, 201] : List Nat) := by simpa using hnot
    simp [_send_to_elasticsearch, hs]

theorem send_success_iff_witness :
    _send_to_elasticsearch false (Except.ok 500)
      = Except.ok ⟨true, some ("[Elasticsearch] Failed to send log: HTTP " ++ toString 500)⟩ :=
  (send_success_iff 500 "boom").2.1 (by decide)

/-- C9: with the client disabled (no usable transport), a send is a no-op:
it returns immediately with success (no warning) and never attempts the
network call, whatever the network would have done. -/
theorem send_disabled_noop (postOutcome : Except PyExc Nat) :
    _send_to_elasticsearch true postOutcome = Except.ok ⟨false, none⟩ := rfl

-- Stats summary (`v2_playbook_on_stats`).

/-- The seven per-host counters returned by Ansible `stats.summarize(h)`
that the plugin copies (source lines 208-217). -/
structure HostCounts where
  ok : Nat
  changed : Nat
  unreachable : Nat
  failures : Nat
  skipped : Nat
  rescued : Nat
  ignored : Nat

/-- A `None`-able string instance field (`self.playbook_id`, `self.playbook_name`
are `None` until `v2_playbook_on_start` runs) as embedded in a document. -/
def optStr : Option String → Value
  | some s => Value.str s
  | none => Value.null

/-- The summary construction of `v2_playbook_on_stats` (source lines 204-217):
`hosts = sorted(stats.processed.keys())`, then one entry per host in that
order, copying the seven counters of `stats.summarize(h)`. Python `sorted`
on strings orders lexicographically by code point, which is the order of
`(· ≤ ·)` on `String`. -/
def buildSummary (processed : List String) (summarize : String → HostCounts) :
    List (String × HostCounts) :=
  (processed.insertionSort (· ≤ ·)).map (fun h =>
    (h, { ok := (summarize h).ok
          changed := (summarize h).changed
          unreachable := (summarize h).unreachable
          failures := (summarize h).failures
          skipped := (summarize h).skipped
          rescued := (summarize h).rescued
          ignored := (summarize h).ignored }))

/-- A per-host summary dict as embedded in the JSON document. -/
def hostCountsValue (c : HostCounts) : Value :=
  Value.dict [("ok", Value.int c.ok), ("changed", Value.int c.changed),
    ("unreachable", Value.int c.unreachable), ("failures", Value.int c.failures),
    ("skipped", Value.int c.skipped), ("rescued", Value.int c.rescued),
    ("ignored", Value.int c.ignored)]

/-- The `playbook_stats` document of `v2_playbook_on_stats` (source lines
219-230). Timestamps are abstract ISO strings; `duration_seconds` (a Python
float) is passed through opaquely. -/
def v2_playbook_on_stats_entry (playbook_id playbook_name : Option String)
    (hostname start_time end_time : String) (duration_seconds : Value)
    (processed : List String) (summarize : String → HostCounts) :
    List (String × Value) :=
  [("@timestamp", Value.str (end_time ++ "Z")),
   ("event_type", Value.str "playbook_stats"),
   ("playbook_id", optStr playbook_id),
   ("playbook", optStr playbook_name),
   ("status", Value.str "completed"),
   ("start_time", Value.str (start_time ++ "Z")),
   ("end_time", Value.str (end_time ++ "Z")),
   ("duration_seconds", duration_seconds),
   ("hostname", Value.str hostname),
   ("summary", Value.dict ((buildSummary processed summarize).map
      (fun p => (p.1, hostCountsValue p.2))))]

/-- C6: for any set of processed hosts (no duplicates, as keys of a dict),
the `summary` field of the `playbook_stats` document lists the hosts in
strictly ascending lexicographic order — a permutation of the input set —
and maps each host to its seven counters from `summarize`. -/
theorem stats_summary_sorted (playbook_id playbook_name : Option String)
    (hostname start_time end_time : String) (duration_seconds : Value)
    (processed : List String) (summarize : String → HostCounts)
    (hnd : processed.Nodup) :
    lookupKey (v2_playbook_on_stats_entry playbook_id playbook_name hostname start_time
        end_time duration_seconds processed summarize) "summary"
      = some (Value.dict ((buildSummary processed summarize).map
          (fun p => (p.1, hostCountsValue p.2))))
    ∧ ((buildSummary processed summarize).map Prod.fst).Sorted (· < ·)
    ∧ ((buildSummary processed summarize).map Prod.fst).Perm processed
    ∧ ∀ p ∈ buildSummary processed summarize, p.2 = summarize p.1 := by
  have hfst : (buildSummary processed summarize).map Prod.fst
      = processed.insertionSort (· ≤ ·) := by
    simp [buildSummary, List.map_map, Function.comp_def]
  refine ⟨rfl, ?_, ?_, ?_⟩
  · rw [hfst]
    have hsorted : (processed.insertionSort (· ≤ ·)).Sorted (· ≤ ·) :=
      List.sorted_insertionSort (· ≤ ·) processed
    have hnodup : (processed.insertionSort (· ≤ ·)).Nodup :=
      (List.perm_insertionSort (· ≤ ·) processed).nodup_iff.mpr hnd
    exact hsorted.lt_of_le hnodup
  · rw [hfst]
    exact List.perm_insertionSort (· ≤ ·) processed
  · intro p hp
    obtain ⟨h, _, hph⟩ := List.mem_map.mp hp
    rw [← hph]

theorem stats_summary_sorted_witness :
    ((buildSummary ["h1", "h0"] (fun _ => ⟨5, 1, 0, 0, 0, 0, 0⟩)).map Prod.fst).Sorted
      (· < ·) :=
  (stats_summary_sorted none none "ctrl" "t0" "t1" Value.null ["h1", "h0"]
    (fun _ => ⟨5, 1, 0, 0, 0, 0, 0⟩) (by decide)).2.1

-- Task-outcome and play-start document builders.

/-- The `task_ok` document of `v2_runner_on_ok` (source lines 127-144).
`changed` is `result.get('changed', False)`; the sanitized result is included
only when `log_task_results` is enabled. -/
def v2_runner_on_ok_entry (playbook_id playbook_name : Option String)
    (now host task hostname : String) (log_task_results : Bool) (result : RawResult) :
    List (String × Value) :=
  [("@timestamp", Value.str (now ++ "Z")),
   ("event_type", Value.str "task_ok"),
   ("playbook_id", optStr playbook_id),
   ("playbook", optStr playbook_name),
   ("host", Value.str host),
   ("task", Value.str task),
   ("status", Value.str "success"),
   ("changed", getDefault result "changed" (Value.bool false)),
   ("hostname", Value.str hostname)]
  ++ (if log_task_results then [("result", Value.dict (_clean_result result))] else [])

/-- The `task_failed` document of `v2_runner_on_failed` (source lines
146-164). `error_message` is `result.get('msg', 'Unknown error')`. -/
def v2_runner_on_failed_entry (playbook_id playbook_name : Option String)
    (now host task hostname : String) (ignore_errors log_task_results : Bool)
    (result : RawResult) : List (String × Value) :=
  [("@timestamp", Value.str (now ++ "Z")),
   ("event_type", Value.str "task_failed"),
   ("playbook_id", optStr playbook_id),
   ("playbook", optStr playbook_name),
   ("host", Value.str host),
   ("task", Value.str task),
   ("status", Value.str "failed"),
   ("ignore_errors", Value.bool ignore_errors),
   ("hostname", Value.str hostname),
   ("error_message", getDefault result "msg" (Value.str "Unknown error"))]
  ++ (if log_task_results then [("result", Value.dict (_clean_result result))] else [])

/-- The `host_unreachable` document of `v2_runner_on_unreachable` (source
lines 182-197). `error_message` is `result.get('msg', 'Host unreachable')`. -/
def v2_runner_on_unreachable_entry (playbook_id playbook_name : Option String)
    (now host task hostname : String) (result : RawResult) : List (String × Value) :=
  [("@timestamp", Value.str (now ++ "Z")),
   ("event_type", Value.str "host_unreachable"),
   ("playbook_id", optStr playbook_id),
   ("playbook", optStr playbook_name),
   ("host", Value.str host),
   ("task", Value.str task),
   ("status", Value.str "unreachable"),
   ("hostname", Value.str hostname),
   ("error_message", getDefault result "msg" (Value.str "Host unreachable"))]

/-- The `play_start` document of `v2_playbook_on_play_start` (source lines
101-112). It is built unconditionally from the instance fields, which are
still `None` before `v2_playbook_on_start` runs (source lines 71-72). -/
def v2_playbook_on_play_start_entry (playbook_id playbook_name : Option String)
    (now play hostname : String) : List (String × Value) :=
  [("@timestamp", Value.str (now ++ "Z")),
   ("event_type", Value.str "play_start"),
   ("playbook_id", optStr playbook_id),
   ("playbook", optStr playbook_name),
   ("play", Value.str play),
   ("hostname", Value.str hostname)]

/-- C7: a missing optional field is replaced by its documented default:
absent `changed` yields `changed = false` in a `task_ok` document, absent
`msg` yields `error_message = "Unknown error"` in a `task_failed` document
and `error_message = "Host unreachable"` in a `host_unreachable` document. -/
theorem builder_defaults (playbook_id playbook_name : Option String)
    (now host task hostname : String) (ignore_errors log_task_results : Bool)
    (result : RawResult) :
    (lookupKey result "changed" = none →
      lookupKey (v2_runner_on_ok_entry playbook_id playbook_name now host task hostname
        log_task_results result) "changed" = some (Value.bool false))
    ∧ (lookupKey result "msg" = none →
      lookupKey (v2_runner_on_failed_entry playbook_id playbook_name now host task hostname
        ignore_errors log_task_results result) "error_message"
        = some (Value.str "Unknown error"))
    ∧ (lookupKey result "msg" = none →
      lookupKey (v2_runner_on_unreachable_entry playbook_id playbook_name now host task
        hostname result) "error_message" = some (Value.str "Host unreachable")) := by
  refine ⟨?_, ?_, ?_⟩
  · intro h
    have hget : getDefault result "changed" (Value.bool false) = Value.bool false := by
      simp only [getDefault, h]
    simp only [v2_runner_on_ok_entry, hget]
    rfl
  · intro h
    have hget : getDefault result "msg" (Value.str "Unknown error")
        = Value.str "Unknown error" := by
      simp only [getDefault, h]
    simp only [v2_runner_on_failed_entry, hget]
    rfl
  · intro h
    have hget : getDefault result "msg" (Value.str "Host unreachable")
        = Value.str "Host unreachable" := by
      simp only [getDefault, h]
    simp only [v2_runner_on_unreachable_entry, hget]
    rfl

theorem builder_defaults_witness :
    lookupKey (v2_runner_on_failed_entry (some "workerA-20240101000000") (some "deploy.yml")
      "t1" "h1" "install pkg" "ctrl" false true []) "error_message"
      = some (Value.str "Unknown error") :=
  (builder_defaults (some "workerA-20240101000000") (some "deploy.yml") "t1" "h1"
    "install pkg" "ctrl" false true []).2.1 rfl

/-- C8, counterexample: with the run context still uninitialized (both
`playbook_id` and `playbook_name` equal to `None`, as set by `__init__`), the
play-start builder does not fail with an `UninitializedContext` error: it
produces a complete document whose run fields are null. -/
theorem play_start_uninitialized_no_error :
    v2_playbook_on_play_start_entry none none "t0" "play1" "ctrl"
      = [("@timestamp", Value.str "t0Z"),
         ("event_type", Value.str "play_start"),
         ("playbook_id", Value.null),
         ("playbook", Value.null),
         ("play", Value.str "play1"),
         ("hostname", Value.str "ctrl")] := rfl

/-- C8, amended: a document-building call occurring before run start does
not yield an error and is not aborted: the builder silently produces a
malformed document carrying `playbook_id = null` and `playbook = null`. -/
theorem play_start_uninitialized_builds (now play hostname : String) :
    lookupKey (v2_playbook_on_play_start_entry none none now play hostname) "playbook_id"
      = some Value.null
    ∧ lookupKey (v2_playbook_on_play_start_entry none none now play hostname) "playbook"
      = some Value.null
    ∧ (v2_playbook_on_play_start_entry none none now play hostname).length = 6 :=
  ⟨rfl, rfl, rfl⟩
